import Mathlib

/-!
# Verification of the grafana-sync CLI against its specification

This file gives a shallow embedding of the two `main.go` variants of the
grafana-sync repository (the raw-HTTP implementation at the repository root
and the SDK-based implementation in the `grafana/` module) and proves or
refutes the specification's claims about them.

Modelling conventions:
* Go `interface{}` values produced by `encoding/json` are modelled by `GoVal`.
  JSON numbers decode to Go `float64`; they are modelled by the `float`
  constructor restricted to integral values (no property considered depends on
  fractional numbers).  The `int` constructor models Go `int` values such as
  the untyped constant `0` appearing in source comparisons; `encoding/json`
  never produces it, which is exactly the point of claim C10.
* HTTP exchanges are modelled by a function `server : Request → HttpResult`
  supplied as a parameter; response bodies are `Bytes` (well-formed JSON or
  malformed).  `http.NewRequest` is assumed not to fail on the URL strings the
  program builds.
* `os.Exit(1)` and `log.Fatalf` are modelled by explicit `exit`/`exited`
  results; a Go `panic` (failed type assertion) by an explicit outcome.
* Filesystem writes are modelled by recording the `(path, content)` pairs the
  program would write; `ioutil.WriteFile` failures by a `canSave` predicate;
  `ioutil.ReadDir`/`ReadFile` results are inputs (`Option` = error on `none`).
-/

/-- A Go `interface{}` value as produced by `encoding/json` decoding, plus the
`int` dynamic type used by Go integer constants.  `nil` models both an absent
map key and a decoded JSON `null`. -/
inductive GoVal where
  | nil
  | bool (b : Bool)
  | float (n : Int)
  | int (n : Int)
  | str (s : String)
  | arr (elems : List GoVal)
  | obj (fields : List (String × GoVal))

/-- Go comparison `v == nil` on an `interface{}` value. -/
def GoVal.isNil : GoVal → Bool
  | .nil => true
  | _ => false

/-- Go comparison `v == 0` on an `interface{}` value: the untyped constant `0`
has default type `int`, so the comparison is true only when the dynamic type of
`v` is `int` and its value is `0`.  A `float64` value `0` compares unequal. -/
def GoVal.eqIntZero : GoVal → Bool
  | .int n => n == 0
  | _ => false

/-- Go comparison `v == s` between an `interface{}` value and a `string`:
true only when the dynamic type of `v` is `string` and the contents agree. -/
def GoVal.eqStr : GoVal → String → Bool
  | .str t, s => t == s
  | _, _ => false

/-- Whether the dynamic type of an `interface{}` value is `string`
(the test performed by the type assertion `v.(string)`). -/
def GoVal.isStr : GoVal → Bool
  | .str _ => true
  | _ => false

/-- Go map read `m[k]` on a `map[string]interface{}`: the zero value `nil`
when the key is absent. -/
def mapGet (m : List (String × GoVal)) (k : String) : GoVal :=
  match m.find? (fun p => p.1 == k) with
  | some p => p.2
  | none => GoVal.nil

/-- Go map write `m[k] = v` on a `map[string]interface{}`. -/
def mapSet (m : List (String × GoVal)) (k : String) (v : GoVal) : List (String × GoVal) :=
  if m.any (fun p => p.1 == k) then
    m.map (fun p => if p.1 == k then (k, v) else p)
  else
    m ++ [(k, v)]

/-- The field names of a JSON object value (empty for non-objects); used to
state what the top level of a request payload contains. -/
def topKeys : GoVal → List String
  | .obj fields => fields.map Prod.fst
  | _ => []

/-- A byte slice as handled by the program: either the serialization of a JSON
value or content that `json.Unmarshal` rejects. -/
inductive Bytes where
  | json (v : GoVal)
  | malformed (s : String)

/-- An HTTP request as built by `sendRequest` (`body = none` for GET). -/
structure Request where
  method : String
  url : String
  body : Option Bytes

/-- The result of `client.Do`: a transport error or a response with a status
code and a body. -/
inductive HttpResult where
  | transportError
  | response (status : Nat) (body : Bytes)

/-- `true` when the response is usable by the program (no transport error,
status below 400 — the threshold tested by `sendRequest`). -/
def HttpResult.ok : HttpResult → Bool
  | .transportError => false
  | .response status _ => status < 400

/-- Either a call to `os.Exit code` or a normal result. -/
inductive ExitOr (α : Type) where
  | exit (code : Nat)
  | ok (a : α)

/--
```go
func sendRequest(method, url string, body []byte) []byte
```
Builds the request, sends it, and calls `os.Exit(1)` on a transport error or
on a status `>= 400`; otherwise returns the response body. -/
def sendRequest (server : Request → HttpResult) (method url : String)
    (body : Option Bytes) : ExitOr Bytes :=
  match server { method := method, url := url, body := body } with
  | .transportError => .exit 1
  | .response status data => if 400 ≤ status then .exit 1 else .ok data

/-- `json.Unmarshal` of one element when decoding into
`[]map[string]interface{}`: the element must be an object.  (Go would also
accept a `null` element, leaving a nil map; such inputs are outside the domain
considered here.) -/
def objFields : GoVal → Option (List (String × GoVal))
  | .obj fields => some fields
  | _ => none

/-- `json.Unmarshal(data, &xs)` for `xs []map[string]interface{}`: succeeds on
a JSON array of objects (and on `null`, which leaves the slice nil). -/
def decodeObjArray : Bytes → Option (List (List (String × GoVal)))
  | .json (GoVal.arr elems) => elems.mapM objFields
  | .json GoVal.nil => some []
  | _ => none

/-- `json.Unmarshal(data, &m)` for `m map[string]interface{}`: succeeds on a
JSON object.  (A top-level `null` would leave a nil map, whose later mutation
in `pushDashboards` would be a nil-map assignment; such inputs are outside the
domain considered here.) -/
def decodeObj : Bytes → Option (List (String × GoVal))
  | .json (GoVal.obj fields) => some fields
  | _ => none

mutual
/-- `fmt.Sprintf("%v", v)` on a decoded JSON value.  Scalar cases follow Go
exactly (an integral `float64` prints in decimal); the composite renderings
approximate Go's `map[...]`/`[...]` forms (Go sorts map keys), which no
property below depends on — the program only formats folder IDs, which are
numbers. -/
def goFormat : GoVal → String
  | .nil => "<nil>"
  | .bool b => if b then "true" else "false"
  | .float n => toString n
  | .int n => toString n
  | .str s => s
  | .arr elems => "[" ++ goFormatList elems ++ "]"
  | .obj fields => "map[" ++ goFormatFields fields ++ "]"

def goFormatList : List GoVal → String
  | [] => ""
  | [v] => goFormat v
  | v :: rest => goFormat v ++ " " ++ goFormatList rest

def goFormatFields : List (String × GoVal) → String
  | [] => ""
  | [(k, v)] => k ++ ":" ++ goFormat v
  | (k, v) :: rest => k ++ ":" ++ goFormat v ++ " " ++ goFormatFields rest
end

/-- `filepath.Ext`: scan backwards from the end; stop with `""` at a path
separator, return the suffix from the last dot otherwise. -/
def fileExtAux (acc : List Char) : List Char → String
  | [] => ""
  | c :: rest =>
    if c = '/' then ""
    else if c = '.' then String.mk ('.' :: acc)
    else fileExtAux (c :: acc) rest

def fileExt (name : String) : String :=
  fileExtAux [] name.data.reverse

/-! ## Raw-HTTP implementation (repository root `main.go`) -/

/-- The loop condition of `getFolderID`: `folder["title"] == folderName`. -/
def titleMatches (folderName : String) (folder : List (String × GoVal)) : Bool :=
  (mapGet folder "title").eqStr folderName

/-- The scan loop of `getFolderID`: return `fmt.Sprintf("%v", folder["id"])`
for the first folder whose `"title"` equals the requested name, else
`os.Exit(1)`. -/
def getFolderIDLoop (folderName : String) :
    List (List (String × GoVal)) → ExitOr String
  | [] => .exit 1
  | f :: rest =>
    if titleMatches folderName f then .ok (goFormat (mapGet f "id"))
    else getFolderIDLoop folderName rest

/--
```go
func getFolderID(folderName string) string
```
GET `{base}/api/folders`, unmarshal into `[]map[string]interface{}`
(`os.Exit(1)` on failure), then scan for the title. -/
def getFolderID (base : String) (server : Request → HttpResult)
    (folderName : String) : ExitOr String :=
  match sendRequest server "GET" (base ++ "/api/folders") none with
  | .exit c => .exit c
  | .ok data =>
    match decodeObjArray data with
    | none => .exit 1
    | some folders => getFolderIDLoop folderName folders

/-- How a run of raw-HTTP `pullDashboards` ends early, if it does. -/
inductive Stop where
  | panicked
  | exited (code : Nat)

/-- Outcome of one iteration of the raw `pullDashboards` loop body. -/
inductive RawOutcome where
  | panicked
  | exitedReq (code : Nat)
  | saveError (title : String)
  | saved (path : String) (data : Bytes)

/-- One iteration of the raw `pullDashboards` loop:
```go
uid := db["uid"].(string)
title := db["title"].(string)
dashboardData := downloadDashboard(uid)
err := saveToFile(filepath.Join(dashboardDir, title+".json"), dashboardData)
```
The unchecked type assertions panic when the value is missing or not a
string; `downloadDashboard` goes through `sendRequest` and hence exits the
process on any fetch failure; a save error is logged and the loop continues.
The fetched bytes are written verbatim. -/
def pullHit (base : String) (server : Request → HttpResult)
    (canSave : String → Bool) (dashboardDir : String)
    (db : List (String × GoVal)) : RawOutcome :=
  match mapGet db "uid", mapGet db "title" with
  | GoVal.str uid, GoVal.str title =>
    match sendRequest server "GET" (base ++ "/api/dashboards/uid/" ++ uid) none with
    | .exit c => .exitedReq c
    | .ok dashboardData =>
      if canSave (dashboardDir ++ "/" ++ title ++ ".json") then
        .saved (dashboardDir ++ "/" ++ title ++ ".json") dashboardData
      else .saveError title
  | _, _ => .panicked

/-- The raw `pullDashboards` loop over the decoded search hits, collecting the
files written and recording how the run stopped, if it did. -/
def pullDashboardsLoop (base : String) (server : Request → HttpResult)
    (canSave : String → Bool) (dashboardDir : String) :
    List (List (String × GoVal)) → List (String × Bytes) × Option Stop
  | [] => ([], none)
  | db :: rest =>
    match pullHit base server canSave dashboardDir db with
    | .panicked => ([], some Stop.panicked)
    | .exitedReq c => ([], some (Stop.exited c))
    | .saveError _ => pullDashboardsLoop base server canSave dashboardDir rest
    | .saved path data =>
      let r := pullDashboardsLoop base server canSave dashboardDir rest
      ((path, data) :: r.1, r.2)

/--
```go
func pullDashboards()
```
Raw-HTTP variant: build the search URL (resolving the folder name first when
one was given), fetch and decode the hit list (a decode failure is logged and
the function returns), then run the loop. -/
def pullDashboards (base : String) (server : Request → HttpResult)
    (folderArg : String) (canSave : String → Bool) (directory : String) :
    List (String × Bytes) × Option Stop :=
  match (if folderArg = "" then ExitOr.ok (base ++ "/api/search?type=dash-db")
         else match getFolderID base server folderArg with
              | .exit c => .exit c
              | .ok fid => .ok (base ++ "/api/search?type=dash-db&folderIds=" ++ fid)) with
  | .exit c => ([], some (Stop.exited c))
  | .ok url =>
    match sendRequest server "GET" url none with
    | .exit c => ([], some (Stop.exited c))
    | .ok data =>
      match decodeObjArray data with
      | none => ([], none)
      | some dashboards =>
        pullDashboardsLoop base server canSave (directory ++ "/dashboards") dashboards

/-- One entry of the local dashboards directory: the file name and the result
of reading it (`none` models an `ioutil.ReadFile` error). -/
structure FileEntry where
  name : String
  content : Option Bytes

/-- The folder-association block of the raw `pushDashboards` loop:
```go
if folderID != "" {
    if dashboard["folderId"] == nil || dashboard["folderId"] == 0 {
        dashboard["folderId"] = folderID
    }
}
```
Note that `folderID` is a `string` (the `getFolderID` result), so the value
stored is a JSON string, and that the `== 0` comparison is against a Go `int`. -/
def attachFolder (folderID : String) (dashboard : List (String × GoVal)) :
    List (String × GoVal) :=
  if folderID = "" then dashboard
  else if (mapGet dashboard "folderId").isNil || (mapGet dashboard "folderId").eqIntZero then
    mapSet dashboard "folderId" (GoVal.str folderID)
  else dashboard

/-- The upload payload built by the raw `pushDashboards` loop:
```go
payload := map[string]interface{}{"dashboard": dashboard, "overwrite": true}
```
applied after the folder-association block. -/
def dashboardPayload (folderID : String) (dashboard : List (String × GoVal)) : GoVal :=
  GoVal.obj [("dashboard", GoVal.obj (attachFolder folderID dashboard)),
             ("overwrite", GoVal.bool true)]

/-- The raw `pushDashboards` loop over the directory entries: non-`.json`
files are ignored; read and decode errors are logged and skipped; each decoded
dashboard is POSTed to `{base}/api/dashboards/db` (a failing POST exits the
process via `sendRequest`).  Returns the requests issued and the exit code, if
the process exited. -/
def pushDashboardsLoop (base : String) (server : Request → HttpResult)
    (folderID : String) : List FileEntry → List Request × Option Nat
  | [] => ([], none)
  | f :: rest =>
    if fileExt f.name = ".json" then
      match f.content with
      | none => pushDashboardsLoop base server folderID rest
      | some data =>
        match decodeObj data with
        | none => pushDashboardsLoop base server folderID rest
        | some dashboard =>
          match server ⟨"POST", base ++ "/api/dashboards/db",
              some (Bytes.json (dashboardPayload folderID dashboard))⟩ with
          | .transportError =>
            ([{ method := "POST", url := base ++ "/api/dashboards/db",
                body := some (Bytes.json (dashboardPayload folderID dashboard)) }], some 1)
          | .response status _ =>
            if 400 ≤ status then
              ([{ method := "POST", url := base ++ "/api/dashboards/db",
                  body := some (Bytes.json (dashboardPayload folderID dashboard)) }], some 1)
            else
              (({ method := "POST", url := base ++ "/api/dashboards/db",
                  body := some (Bytes.json (dashboardPayload folderID dashboard)) } : Request)
                  :: (pushDashboardsLoop base server folderID rest).1,
                (pushDashboardsLoop base server folderID rest).2)
    else pushDashboardsLoop base server folderID rest

/--
```go
func pushDashboards()
```
Raw-HTTP variant.  `files, _ := ioutil.ReadDir(dashboardDir)` discards the
listing error, so a failed listing behaves like an empty directory; the folder
name, when given, is resolved next (fatal on failure); then the loop runs. -/
def pushDashboards (base : String) (server : Request → HttpResult)
    (folderArg : String) (dirListing : Option (List FileEntry)) :
    List Request × Option Nat :=
  let files := dirListing.getD []
  match (if folderArg = "" then ExitOr.ok "" else getFolderID base server folderArg) with
  | .exit c => ([], some c)
  | .ok folderID => pushDashboardsLoop base server folderID files

/-- Issue a list of POST requests through `sendRequest` in order: a transport
error or a status `>= 400` exits the process (code 1) after that request was
issued; otherwise all requests are issued.  Returns the requests issued and
the exit code, if any. -/
def sendAll (server : Request → HttpResult) :
    List Request → List Request × Option Nat
  | [] => ([], none)
  | r :: rest =>
    match server r with
    | .transportError => ([r], some 1)
    | .response status _ =>
      if 400 ≤ status then ([r], some 1)
      else
        let t := sendAll server rest
        (r :: t.1, t.2)

/--
```go
func pushDatasources()
```
Read `{directory}/datasources/datasources.json` (`fileRead`, `none` on read
error), unmarshal into `[]map[string]interface{}`; a read or decode error is
logged and the function returns.  Each record is re-marshalled and POSTed to
`{base}/api/datasources`. -/
def pushDatasources (base : String) (server : Request → HttpResult)
    (fileRead : Option Bytes) : List Request × Option Nat :=
  match fileRead with
  | none => ([], none)
  | some data =>
    match decodeObjArray data with
    | none => ([], none)
    | some datasources =>
      sendAll server (datasources.map (fun ds =>
        { method := "POST", url := base ++ "/api/datasources",
          body := some (Bytes.json (GoVal.obj ds)) }))

/--
```go
func pushFolders()
```
Same structure as `pushDatasources`, against `{base}/api/folders`. -/
def pushFolders (base : String) (server : Request → HttpResult)
    (fileRead : Option Bytes) : List Request × Option Nat :=
  match fileRead with
  | none => ([], none)
  | some data =>
    match decodeObjArray data with
    | none => ([], none)
    | some folders =>
      sendAll server (folders.map (fun f =>
        { method := "POST", url := base ++ "/api/folders",
          body := some (Bytes.json (GoVal.obj f)) }))

/--
```go
func pushNotificationChannels()
```
Same structure as `pushDatasources`, against `{base}/api/alert-notifications`. -/
def pushNotificationChannels (base : String) (server : Request → HttpResult)
    (fileRead : Option Bytes) : List Request × Option Nat :=
  match fileRead with
  | none => ([], none)
  | some data =>
    match decodeObjArray data with
    | none => ([], none)
    | some notifications =>
      sendAll server (notifications.map (fun nc =>
        { method := "POST", url := base ++ "/api/alert-notifications",
          body := some (Bytes.json (GoVal.obj nc)) }))

/-! ## SDK-based implementation (`grafana/main.go`, given as `src/unnamed/part_001`) -/

/-- The fields of `sdk.Board` this development tracks: the numeric ID (`uint`),
the UID and the title.  The many remaining `sdk.Board` fields are carried as an
uninterpreted field bag so that statements about them being preserved make
sense. -/
structure Board where
  ID : Nat
  UID : String
  Title : String
  rest : List (String × GoVal)

/-- The part of `sdk.BoardProperties` (the `meta` of `GetDashboardByUID`) the
program uses: the server-computed slug. -/
structure BoardMeta where
  Slug : String

/-- The part of an `sdk.FoundBoard` search hit the program uses.  `Typ` models
the `Type` field. -/
structure FoundBoard where
  UID : String
  Title : String
  Typ : String

/-- Outcome of one iteration of the SDK `pullDashboards` loop body. -/
inductive SdkPullOutcome where
  | skippedType
  | fetchError
  | noTitle
  | saveError
  | saved (path : String) (board : Board)

/-- One iteration of the SDK `pullDashboards` loop:
```go
if db.Type != "dash-db" { continue }
board, meta, err := client.GetDashboardByUID(ctx, db.UID)
if err != nil { log.Printf(...); continue }
if board.Title == "" { log.Printf(...); continue }
board.ID = 0
filePath := filepath.Join(dashboardDir, meta.Slug+".json")
data, err := json.MarshalIndent(board, "", "  ")
if err := os.WriteFile(filePath, data, 0644); err != nil { ...; continue }
```
`fetch` models `GetDashboardByUID` (`none` = error); marshalling a `Board`
cannot fail; the written content is modelled by the `Board` value itself. -/
def sdkPullHit (fetch : String → Option (Board × BoardMeta))
    (canSave : String → Bool) (dashboardDir : String) (db : FoundBoard) :
    SdkPullOutcome :=
  if db.Typ ≠ "dash-db" then .skippedType
  else
    match fetch db.UID with
    | none => .fetchError
    | some (board, meta) =>
      if board.Title = "" then .noTitle
      else
        let board := { board with ID := 0 }
        if canSave (dashboardDir ++ "/" ++ meta.Slug ++ ".json") then
          .saved (dashboardDir ++ "/" ++ meta.Slug ++ ".json") board
        else .saveError

/-- The SDK `pullDashboards` loop: every per-dashboard failure is logged and
skipped; the files written are collected. -/
def sdkPullLoop (fetch : String → Option (Board × BoardMeta))
    (canSave : String → Bool) (dashboardDir : String) :
    List FoundBoard → List (String × Board)
  | [] => []
  | db :: rest =>
    match sdkPullHit fetch canSave dashboardDir db with
    | .saved path board => (path, board) :: sdkPullLoop fetch canSave dashboardDir rest
    | _ => sdkPullLoop fetch canSave dashboardDir rest

/-- The fields of `sdk.Folder` the program uses. -/
structure SdkFolder where
  ID : Int
  Title : String

/-- Either a `log.Fatalf` (which calls `os.Exit(1)`) or a normal result. -/
inductive SdkStep (α : Type) where
  | exited (code : Nat)
  | ok (a : α)

/--
```go
func getFolderID(folderName string) int
```
SDK variant: `GetAllFolders` (`none` = error, fatal), first `Title` match wins,
fatal when no folder matches. -/
def sdkGetFolderID (folders : Option (List SdkFolder)) (folderName : String) :
    SdkStep Int :=
  match folders with
  | none => .exited 1
  | some fs =>
    match fs.find? (fun f => f.Title == folderName) with
    | some f => .ok f.ID
    | none => .exited 1

/-- `json.Unmarshal` of a dashboard file into an `sdk.Board`: the document
must be a JSON object; `id` (a `uint`) must be absent, `null`, or a
non-negative integral number; `uid` and `title` must be absent, `null`, or
strings; other fields go to the uninterpreted bag. -/
def boardOfJson : Bytes → Option Board
  | Bytes.json (GoVal.obj m) =>
    match mapGet m "id", mapGet m "uid", mapGet m "title" with
    | GoVal.nil, u, t => boardFields m 0 u t
    | GoVal.float n, u, t => if 0 ≤ n then boardFields m n.toNat u t else none
    | _, _, _ => none
  | _ => none
where
  boardFields (m : List (String × GoVal)) (i : Nat) (u t : GoVal) : Option Board :=
    match u, t with
    | GoVal.nil, GoVal.nil => some ⟨i, "", "", boardRest m⟩
    | GoVal.nil, GoVal.str ts => some ⟨i, "", ts, boardRest m⟩
    | GoVal.str us, GoVal.nil => some ⟨i, us, "", boardRest m⟩
    | GoVal.str us, GoVal.str ts => some ⟨i, us, ts, boardRest m⟩
    | _, _ => none
  boardRest (m : List (String × GoVal)) : List (String × GoVal) :=
    m.filter (fun p => !(p.1 == "id" || p.1 == "uid" || p.1 == "title"))

/-- One `client.SetDashboard(ctx, dashboard, params)` call as issued by the
SDK `pushDashboards`: `params` is `sdk.SetDashboardParams{FolderID: folderID,
Overwrite: true}`. -/
structure SetDashboardCall where
  board : Board
  folderId : Int
  overwrite : Bool

/-- The SDK `pushDashboards` loop: non-`.json` files ignored; read, decode and
upload errors logged and skipped; the `SetDashboard` calls made are
collected. -/
def sdkPushLoop (folderID : Int) : List FileEntry → List SetDashboardCall
  | [] => []
  | f :: rest =>
    if fileExt f.name = ".json" then
      match f.content with
      | none => sdkPushLoop folderID rest
      | some data =>
        match boardOfJson data with
        | none => sdkPushLoop folderID rest
        | some board =>
          { board := board, folderId := folderID, overwrite := true } :: sdkPushLoop folderID rest
    else sdkPushLoop folderID rest

/--
```go
func pushDashboards()
```
SDK variant: `os.ReadDir` failure is fatal (`log.Fatalf`); then the folder
name, when given, is resolved (fatal on failure; `folderID` stays `0`
otherwise); then the loop runs. -/
def sdkPushDashboards (folders : Option (List SdkFolder)) (folderArg : String)
    (dirListing : Option (List FileEntry)) : SdkStep (List SetDashboardCall) :=
  match dirListing with
  | none => .exited 1
  | some files =>
    match (if folderArg = "" then SdkStep.ok 0 else sdkGetFolderID folders folderArg) with
    | .exited c => .exited c
    | .ok folderID => .ok (sdkPushLoop folderID files)

/-! ## Helper lemmas -/

theorem getFolderIDLoop_find (folderName : String)
    (folders : List (List (String × GoVal))) :
    (∀ f, folders.find? (titleMatches folderName) = some f →
        getFolderIDLoop folderName folders = ExitOr.ok (goFormat (mapGet f "id")))
    ∧ (folders.find? (titleMatches folderName) = none →
        getFolderIDLoop folderName folders = ExitOr.exit 1) := by
  induction folders with
  | nil =>
    refine ⟨fun f hf => ?_, fun _ => rfl⟩
    simp [List.find?] at hf
  | cons g rest ih =>
    by_cases hg : titleMatches folderName g = true
    · refine ⟨fun f hf => ?_, fun hf => ?_⟩
      · rw [List.find?_cons_of_pos _ hg] at hf
        cases hf
        simp [getFolderIDLoop, hg]
      · rw [List.find?_cons_of_pos _ hg] at hf
        cases hf
    · have hg' : titleMatches folderName g = false := by
        simpa using hg
      refine ⟨fun f hf => ?_, fun hf => ?_⟩
      · rw [List.find?_cons_of_neg _ (by simp [hg'])] at hf
        simp only [getFolderIDLoop, hg']
        exact ih.1 f hf
      · rw [List.find?_cons_of_neg _ (by simp [hg'])] at hf
        simp only [getFolderIDLoop, hg']
        exact ih.2 hf

theorem sendAll_ok (server : Request → HttpResult) (reqs : List Request)
    (hok : ∀ r, (server r).ok = true) : sendAll server reqs = (reqs, none) := by
  induction reqs with
  | nil => rfl
  | cons r rest ih =>
    have h := hok r
    unfold sendAll
    cases hr : server r with
    | transportError => rw [hr] at h; simp [HttpResult.ok] at h
    | response status body =>
      rw [hr] at h
      simp only [HttpResult.ok, decide_eq_true_eq] at h
      have hlt : ¬ 400 ≤ status := by omega
      simp [hlt, ih]

/-! ## Claims -/

/-- Claim C4 (confirmed): `Resolve Folder ID` (raw `getFolderID`) fetches the
full folder list and linear-scans for an exact title match.  Whenever the
decoded folder list contains an entry whose `"title"` equals the name, the
result is that entry's ID (first match in list order, formatted with `%v`);
when no entry's title equals the name, the operation calls `os.Exit(1)`. -/
theorem getFolderID_linear_scan (base folderName : String)
    (server : Request → HttpResult) (status : Nat) (data : Bytes)
    (folders : List (List (String × GoVal)))
    (hresp : server { method := "GET", url := base ++ "/api/folders", body := none }
      = HttpResult.response status data)
    (hstatus : status < 400)
    (hdec : decodeObjArray data = some folders) :
    (∀ f, folders.find? (titleMatches folderName) = some f →
        getFolderID base server folderName = ExitOr.ok (goFormat (mapGet f "id")))
    ∧ (folders.find? (titleMatches folderName) = none →
        getFolderID base server folderName = ExitOr.exit 1) := by
  have hlt : ¬ 400 ≤ status := by omega
  have hsend : sendRequest server "GET" (base ++ "/api/folders") none = ExitOr.ok data := by
    unfold sendRequest
    rw [hresp]
    simp [hlt]
  have hgf : getFolderID base server folderName = getFolderIDLoop folderName folders := by
    unfold getFolderID
    simp only [hsend, hdec]
  rw [hgf]
  exact getFolderIDLoop_find folderName folders

/-- Witness for C4: a server holding one folder `{id: 7, title: "Engineering"}`
resolves `"Engineering"` to `"7"`. -/
theorem getFolderID_linear_scan_witness :
    getFolderID "http://g"
      (fun r => if r.url = "http://g/api/folders"
        then HttpResult.response 200 (Bytes.json (GoVal.arr
          [GoVal.obj [("id", GoVal.float 7), ("title", GoVal.str "Engineering")]]))
        else HttpResult.response 200 (Bytes.json GoVal.nil))
      "Engineering" = ExitOr.ok "7" :=
  (getFolderID_linear_scan "http://g" "Engineering"
      (fun r => if r.url = "http://g/api/folders"
        then HttpResult.response 200 (Bytes.json (GoVal.arr
          [GoVal.obj [("id", GoVal.float 7), ("title", GoVal.str "Engineering")]]))
        else HttpResult.response 200 (Bytes.json GoVal.nil))
      200 (Bytes.json (GoVal.arr
        [GoVal.obj [("id", GoVal.float 7), ("title", GoVal.str "Engineering")]]))
      [[("id", GoVal.float 7), ("title", GoVal.str "Engineering")]]
      rfl (by omega) rfl).1
    [("id", GoVal.float 7), ("title", GoVal.str "Engineering")] rfl

/-- Claim C9 (confirmed): in the raw-HTTP `pullDashboards`, a search hit whose
`"uid"` or `"title"` value is missing or not a string makes the loop panic on
the unchecked type assertion — the hit is not logged and skipped, the whole
run stops. -/
theorem pullDashboards_hit_type_assertion_panics (base : String)
    (server : Request → HttpResult) (canSave : String → Bool)
    (dashboardDir : String) (db : List (String × GoVal))
    (rest : List (List (String × GoVal)))
    (h : (mapGet db "uid").isStr = false ∨ (mapGet db "title").isStr = false) :
    pullDashboardsLoop base server canSave dashboardDir (db :: rest)
      = ([], some Stop.panicked) := by
  have hph : pullHit base server canSave dashboardDir db = RawOutcome.panicked := by
    unfold pullHit
    cases hu : mapGet db "uid" <;> cases ht : mapGet db "title" <;>
      simp_all [GoVal.isStr]
  simp [pullDashboardsLoop, hph]

/-- Witness for C9: a hit whose `"uid"` is a number panics. -/
theorem pullDashboards_hit_type_assertion_panics_witness :
    pullDashboardsLoop "http://g"
      (fun _ => HttpResult.response 200 (Bytes.json GoVal.nil)) (fun _ => true)
      "grafana_data/dashboards"
      [[("uid", GoVal.float 1), ("title", GoVal.str "t")]]
      = ([], some Stop.panicked) :=
  pullDashboards_hit_type_assertion_panics "http://g"
    (fun _ => HttpResult.response 200 (Bytes.json GoVal.nil)) (fun _ => true)
    "grafana_data/dashboards" [("uid", GoVal.float 1), ("title", GoVal.str "t")] []
    (Or.inl rfl)

/-- Claim C10 (confirmed): in the raw-HTTP `pushDashboards`, when a folder was
resolved, the folder ID is written into the dashboard's own `"folderId"` field
only if that field is nil (absent or JSON `null`) or equal to `0` (a Go `int`
`0` — note that decoded JSON numbers are `float64`, so the `== 0` comparison
never matches a decoded value); a dashboard whose decoded `"folderId"` is any
other value keeps its original value in the uploaded payload. -/
theorem attachFolder_writes_only_nil_or_zero (folderID : String)
    (dashboard : List (String × GoVal)) (hfid : folderID ≠ "") :
    (attachFolder folderID dashboard ≠ dashboard →
        mapGet dashboard "folderId" = GoVal.nil ∨
        mapGet dashboard "folderId" = GoVal.float 0 ∨
        mapGet dashboard "folderId" = GoVal.int 0)
    ∧ (mapGet dashboard "folderId" ≠ GoVal.nil →
       mapGet dashboard "folderId" ≠ GoVal.float 0 →
       mapGet dashboard "folderId" ≠ GoVal.int 0 →
       attachFolder folderID dashboard = dashboard ∧
       dashboardPayload folderID dashboard =
         GoVal.obj [("dashboard", GoVal.obj dashboard), ("overwrite", GoVal.bool true)]) := by
  have key : mapGet dashboard "folderId" ≠ GoVal.nil →
      mapGet dashboard "folderId" ≠ GoVal.int 0 →
      attachFolder folderID dashboard = dashboard := by
    intro hnil hz
    have hb : ((mapGet dashboard "folderId").isNil
        || (mapGet dashboard "folderId").eqIntZero) = false := by
      rcases hv : mapGet dashboard "folderId" with _ | b | n | n | s | xs | fs
      · exact absurd hv hnil
      · rfl
      · rfl
      · simp only [GoVal.isNil, GoVal.eqIntZero, Bool.false_or, beq_eq_false_iff_ne, ne_eq]
        intro hn0
        subst hn0
        exact hz hv
      · rfl
      · rfl
      · rfl
    unfold attachFolder
    rw [if_neg hfid]
    simp [hb]
  constructor
  · intro hne
    by_cases hnil : mapGet dashboard "folderId" = GoVal.nil
    · exact Or.inl hnil
    by_cases hz : mapGet dashboard "folderId" = GoVal.int 0
    · exact Or.inr (Or.inr hz)
    exact absurd (key hnil hz) hne
  · intro hnil _ hz
    refine ⟨key hnil hz, ?_⟩
    unfold dashboardPayload
    rw [key hnil hz]

/-- Witness for C10: a dashboard whose decoded `"folderId"` is the string
`"5"` keeps it. -/
theorem attachFolder_writes_only_nil_or_zero_witness :
    attachFolder "7" [("folderId", GoVal.str "5")] = [("folderId", GoVal.str "5")] ∧
    dashboardPayload "7" [("folderId", GoVal.str "5")] =
      GoVal.obj [("dashboard", GoVal.obj [("folderId", GoVal.str "5")]),
                 ("overwrite", GoVal.bool true)] :=
  (attachFolder_writes_only_nil_or_zero "7" [("folderId", GoVal.str "5")]
      (by decide)).2
    (fun h => by nomatch h) (fun h => by nomatch h) (fun h => by nomatch h)

/-- Claim C1 (counterexample): the raw-HTTP `pullDashboards` writes the
fetched response bytes verbatim, so a server body whose `dashboard.id` is
`42` is saved with the ID still `42`, not zeroed. -/
theorem pullDashboards_raw_keeps_server_id :
    pullHit "http://g"
      (fun r => if r.url = "http://g/api/dashboards/uid/u1"
        then HttpResult.response 200 (Bytes.json (GoVal.obj
          [("meta", GoVal.obj []),
           ("dashboard", GoVal.obj
             [("id", GoVal.float 42), ("uid", GoVal.str "u1"), ("title", GoVal.str "T one")])]))
        else HttpResult.response 200 (Bytes.json GoVal.nil))
      (fun _ => true) "grafana_data/dashboards"
      [("uid", GoVal.str "u1"), ("title", GoVal.str "T one")]
    = RawOutcome.saved "grafana_data/dashboards/T one.json"
        (Bytes.json (GoVal.obj
          [("meta", GoVal.obj []),
           ("dashboard", GoVal.obj
             [("id", GoVal.float 42), ("uid", GoVal.str "u1"), ("title", GoVal.str "T one")])]))
    ∧ GoVal.float 42 ≠ GoVal.float 0 := by
  refine ⟨rfl, fun h => ?_⟩
  injection h with h
  omega

/-- Claim C1 (amended): in the SDK implementation, every dashboard saved by
the pull loop has its numeric ID field set to `0`, whatever ID the server
returned; the raw-HTTP implementation instead writes the fetched body
verbatim. -/
theorem sdkPullHit_zeroes_id (fetch : String → Option (Board × BoardMeta))
    (canSave : String → Bool) (dashboardDir : String) (db : FoundBoard)
    (path : String) (board : Board)
    (h : sdkPullHit fetch canSave dashboardDir db = SdkPullOutcome.saved path board) :
    board.ID = 0 := by
  unfold sdkPullHit at h
  split at h
  · exact absurd h (by simp)
  · split at h
    · exact absurd h (by simp)
    · split at h
      · exact absurd h (by simp)
      · split at h
        · simp only [SdkPullOutcome.saved.injEq] at h
          rw [← h.2]
        · exact absurd h (by simp)

/-- Witness for the amended C1: a board fetched with ID `42` is saved with
ID `0`. -/
theorem sdkPullHit_zeroes_id_witness :
    sdkPullHit (fun _ => some (⟨42, "u1", "T", []⟩, ⟨"t-slug"⟩)) (fun _ => true)
        "grafana_data/dashboards" ⟨"u1", "T", "dash-db"⟩
      = SdkPullOutcome.saved "grafana_data/dashboards/t-slug.json" ⟨0, "u1", "T", []⟩
    ∧ (⟨0, "u1", "T", []⟩ : Board).ID = 0 :=
  ⟨rfl, sdkPullHit_zeroes_id (fun _ => some (⟨42, "u1", "T", []⟩, ⟨"t-slug"⟩))
    (fun _ => true) "grafana_data/dashboards" ⟨"u1", "T", "dash-db"⟩
    "grafana_data/dashboards/t-slug.json" ⟨0, "u1", "T", []⟩ rfl⟩

/-- Claim C2 (counterexample): in the raw-HTTP `pullDashboards`, a status-500
response while downloading the first dashboard's body makes the whole run exit
with code 1 — nothing is saved, and the second hit is never processed even
though the server would serve it (second conjunct). -/
theorem pullDashboards_fetch_failure_aborts_pull :
    pullDashboardsLoop "http://g"
      (fun r => if r.url = "http://g/api/dashboards/uid/u1"
        then HttpResult.response 500 (Bytes.json GoVal.nil)
        else HttpResult.response 200 (Bytes.json (GoVal.obj [("dashboard", GoVal.obj [("id", GoVal.float 7)])])))
      (fun _ => true) "grafana_data/dashboards"
      [[("uid", GoVal.str "u1"), ("title", GoVal.str "t1")],
       [("uid", GoVal.str "u2"), ("title", GoVal.str "t2")]]
    = ([], some (Stop.exited 1))
    ∧ (fun (r : Request) => if r.url = "http://g/api/dashboards/uid/u1"
        then HttpResult.response 500 (Bytes.json GoVal.nil)
        else HttpResult.response 200 (Bytes.json (GoVal.obj [("dashboard", GoVal.obj [("id", GoVal.float 7)])])))
      { method := "GET", url := "http://g/api/dashboards/uid/u2", body := none }
      = HttpResult.response 200 (Bytes.json (GoVal.obj [("dashboard", GoVal.obj [("id", GoVal.float 7)])])) :=
  ⟨rfl, rfl⟩

/-- Claim C2 (amended): in the raw-HTTP implementation a fetch failure
(transport error or status `>= 400`) while downloading one dashboard's body is
fatal — the process exits with code 1 and the remaining dashboards are not
processed; in the SDK implementation such a failure is logged and only that
dashboard is skipped. -/
theorem pull_fetch_failure_fatal_in_raw :
    (∀ (base : String) (server : Request → HttpResult) (canSave : String → Bool)
        (dashboardDir : String) (db : List (String × GoVal))
        (rest : List (List (String × GoVal))) (uid title : String),
        mapGet db "uid" = GoVal.str uid →
        mapGet db "title" = GoVal.str title →
        (server { method := "GET", url := base ++ "/api/dashboards/uid/" ++ uid,
                  body := none }).ok = false →
        pullDashboardsLoop base server canSave dashboardDir (db :: rest)
          = ([], some (Stop.exited 1)))
    ∧ (∀ (fetch : String → Option (Board × BoardMeta)) (canSave : String → Bool)
        (dashboardDir : String) (db : FoundBoard) (rest : List FoundBoard),
        fetch db.UID = none →
        sdkPullLoop fetch canSave dashboardDir (db :: rest)
          = sdkPullLoop fetch canSave dashboardDir rest) := by
  constructor
  · intro base server canSave dashboardDir db rest uid title hu ht hfail
    have hsend : sendRequest server "GET" (base ++ "/api/dashboards/uid/" ++ uid) none
        = ExitOr.exit 1 := by
      unfold sendRequest
      cases hr : server ⟨"GET", base ++ "/api/dashboards/uid/" ++ uid, none⟩ with
      | transportError => rfl
      | response status body =>
        rw [hr] at hfail
        simp only [HttpResult.ok, decide_eq_false_iff_not, Nat.not_lt] at hfail
        simp [hfail]
    have hph : pullHit base server canSave dashboardDir db = RawOutcome.exitedReq 1 := by
      unfold pullHit
      rw [hu, ht]
      simp only [hsend]
    simp [pullDashboardsLoop, hph]
  · intro fetch canSave dashboardDir db rest hf
    by_cases hT : db.Typ ≠ "dash-db"
    · have hph : sdkPullHit fetch canSave dashboardDir db = SdkPullOutcome.skippedType := by
        unfold sdkPullHit
        rw [if_pos hT]
      simp [sdkPullLoop, hph]
    · have hph : sdkPullHit fetch canSave dashboardDir db = SdkPullOutcome.fetchError := by
        unfold sdkPullHit
        rw [if_neg hT]
        simp only [hf]
      simp [sdkPullLoop, hph]

/-- Witness for the amended C2: a constant-500 server makes the raw loop exit;
a failing SDK fetch skips the hit. -/
theorem pull_fetch_failure_fatal_in_raw_witness :
    pullDashboardsLoop "http://g" (fun _ => HttpResult.response 500 (Bytes.json GoVal.nil))
      (fun _ => true) "grafana_data/dashboards"
      [[("uid", GoVal.str "u1"), ("title", GoVal.str "t1")]]
      = ([], some (Stop.exited 1))
    ∧ sdkPullLoop (fun _ => none) (fun _ => true) "grafana_data/dashboards"
        [⟨"u1", "t1", "dash-db"⟩]
      = sdkPullLoop (fun _ => none) (fun _ => true) "grafana_data/dashboards" [] :=
  ⟨pull_fetch_failure_fatal_in_raw.1 "http://g"
      (fun _ => HttpResult.response 500 (Bytes.json GoVal.nil)) (fun _ => true)
      "grafana_data/dashboards" [("uid", GoVal.str "u1"), ("title", GoVal.str "t1")] []
      "u1" "t1" rfl rfl rfl,
   pull_fetch_failure_fatal_in_raw.2 (fun _ => none) (fun _ => true)
      "grafana_data/dashboards" ⟨"u1", "t1", "dash-db"⟩ [] rfl⟩

/-- Claim C3 (counterexample): with folder `"Engineering"` resolved to ID 7,
the raw `pushDashboards` POSTs a body whose top level holds only
`"dashboard"` and `"overwrite"` — the resolved folder ID is stored inside the
dashboard object (as the string `"7"`), never as a top-level `"folderId"`
field of the request body. -/
theorem pushDashboards_no_top_level_folderId :
    pushDashboards "http://g"
      (fun r => if r.url = "http://g/api/folders"
        then HttpResult.response 200 (Bytes.json (GoVal.arr
          [GoVal.obj [("id", GoVal.float 7), ("title", GoVal.str "Engineering")]]))
        else HttpResult.response 200 (Bytes.json GoVal.nil))
      "Engineering"
      (some [⟨"d.json", some (Bytes.json (GoVal.obj [("title", GoVal.str "x")]))⟩])
    = ([{ method := "POST", url := "http://g/api/dashboards/db",
          body := some (Bytes.json (GoVal.obj
            [("dashboard", GoVal.obj [("title", GoVal.str "x"), ("folderId", GoVal.str "7")]),
             ("overwrite", GoVal.bool true)])) }], none)
    ∧ (topKeys (GoVal.obj
        [("dashboard", GoVal.obj [("title", GoVal.str "x"), ("folderId", GoVal.str "7")]),
         ("overwrite", GoVal.bool true)])).contains "folderId" = false :=
  ⟨rfl, rfl⟩

/-- Claim C3 (amended): every request issued by the raw `pushDashboards` loop
is a POST to `{base}/api/dashboards/db` whose body has exactly the top-level
keys `"dashboard"` and `"overwrite"` (so `overwrite` is always present and no
top-level `"folderId"` ever is); a resolved folder ID is attached inside the
dashboard object by `attachFolder`. -/
theorem pushDashboards_payload_shape (base : String) (server : Request → HttpResult)
    (folderID : String) (files : List FileEntry) :
    (pushDashboardsLoop base server folderID files).1.Forall (fun r =>
      r.method = "POST" ∧ r.url = base ++ "/api/dashboards/db" ∧
      ∃ dashboard, r.body = some (Bytes.json (dashboardPayload folderID dashboard)) ∧
        topKeys (dashboardPayload folderID dashboard) = ["dashboard", "overwrite"] ∧
        (topKeys (dashboardPayload folderID dashboard)).contains "folderId" = false) := by
  induction files with
  | nil => exact trivial
  | cons f rest ih =>
    rw [pushDashboardsLoop]
    split
    · split
      · exact ih
      · split
        · exact ih
        · split
          · rw [List.forall_cons]
            exact ⟨⟨rfl, rfl, _, rfl, rfl, rfl⟩, trivial⟩
          · split
            · rw [List.forall_cons]
              exact ⟨⟨rfl, rfl, _, rfl, rfl, rfl⟩, trivial⟩
            · rw [List.forall_cons]
              exact ⟨⟨rfl, rfl, _, rfl, rfl, rfl⟩, ih⟩
    · exact ih

/-- Claim C5 (counterexample): the raw implementation names the written file
after the raw title, not a slug — the title `"My Dash!"` (which contains a
space, so no URL-safe slug equals it) becomes the file stem verbatim. -/
theorem pullDashboards_filename_is_raw_title :
    pullHit "http://g"
      (fun _ => HttpResult.response 200
        (Bytes.json (GoVal.obj [("dashboard", GoVal.obj [("id", GoVal.float 3)])])))
      (fun _ => true) "grafana_data/dashboards"
      [("uid", GoVal.str "u1"), ("title", GoVal.str "My Dash!")]
      = RawOutcome.saved ("grafana_data/dashboards/" ++ "My Dash!" ++ ".json")
          (Bytes.json (GoVal.obj [("dashboard", GoVal.obj [("id", GoVal.float 3)])]))
    ∧ ("My Dash!".data.contains ' ') = true :=
  ⟨rfl, rfl⟩

/-- Claim C5 (amended): files always go to `{dashboardDir}` with extension
`.json`; the stem is the server-provided slug (`meta.Slug`) in the SDK
implementation, but the raw dashboard title itself in the raw-HTTP
implementation. -/
theorem dashboard_file_naming :
    (∀ (fetch : String → Option (Board × BoardMeta)) (canSave : String → Bool)
        (dashboardDir : String) (db : FoundBoard) (path : String) (board : Board),
        sdkPullHit fetch canSave dashboardDir db = SdkPullOutcome.saved path board →
        ∃ fetched meta, fetch db.UID = some (fetched, meta) ∧
          path = dashboardDir ++ "/" ++ meta.Slug ++ ".json")
    ∧ (∀ (base : String) (server : Request → HttpResult) (canSave : String → Bool)
        (dashboardDir : String) (db : List (String × GoVal)) (path : String) (data : Bytes),
        pullHit base server canSave dashboardDir db = RawOutcome.saved path data →
        ∃ title, mapGet db "title" = GoVal.str title ∧
          path = dashboardDir ++ "/" ++ title ++ ".json") := by
  constructor
  · intro fetch canSave dashboardDir db path board h
    unfold sdkPullHit at h
    by_cases hT : db.Typ ≠ "dash-db"
    · rw [if_pos hT] at h
      simp at h
    · rw [if_neg hT] at h
      cases hf : fetch db.UID with
      | none => rw [hf] at h; simp at h
      | some pr =>
        obtain ⟨fetched, meta⟩ := pr
        rw [hf] at h
        by_cases ht : fetched.Title = ""
        · simp [ht] at h
        · by_cases hc : canSave (dashboardDir ++ "/" ++ meta.Slug ++ ".json") = true
          · simp [ht, hc] at h
            exact ⟨fetched, meta, rfl, h.1.symm⟩
          · simp [ht, hc] at h
  · intro base server canSave dashboardDir db path data h
    unfold pullHit at h
    rcases hu : mapGet db "uid" with _ | b | n | n | s | xs | fs <;> rw [hu] at h
    · simp at h
    · simp at h
    · simp at h
    · simp at h
    · rcases ht : mapGet db "title" with _ | b | n | n | t | xs | fs <;> rw [ht] at h
      · simp at h
      · simp at h
      · simp at h
      · simp at h
      · have h' : (match sendRequest server "GET" (base ++ "/api/dashboards/uid/" ++ s) none with
            | ExitOr.exit c => RawOutcome.exitedReq c
            | ExitOr.ok dashboardData =>
              if canSave (dashboardDir ++ "/" ++ t ++ ".json") = true then
                RawOutcome.saved (dashboardDir ++ "/" ++ t ++ ".json") dashboardData
              else RawOutcome.saveError t) = RawOutcome.saved path data := h
        cases hs : sendRequest server "GET" (base ++ "/api/dashboards/uid/" ++ s) none with
        | exit c => rw [hs] at h'; simp at h'
        | ok val =>
          rw [hs] at h'
          by_cases hc : canSave (dashboardDir ++ "/" ++ t ++ ".json") = true
          · simp [hc] at h'
            exact ⟨t, rfl, h'.1.symm⟩
          · simp [hc] at h'
      · simp at h
      · simp at h
    · simp at h
    · simp at h

/-- Witness for the amended C5: one saved file in each implementation, named
by the slug (SDK) and by the raw title (raw). -/
theorem dashboard_file_naming_witness :
    (∃ fetched meta,
      (fun (_ : String) => some ((⟨9, "u1", "T", []⟩ : Board), (⟨"t-slug"⟩ : BoardMeta))) "u1"
        = some (fetched, meta) ∧
      "grafana_data/dashboards/t-slug.json"
        = "grafana_data/dashboards" ++ "/" ++ meta.Slug ++ ".json")
    ∧ (∃ title,
      mapGet [("uid", GoVal.str "u1"), ("title", GoVal.str "t1")] "title" = GoVal.str title ∧
      "grafana_data/dashboards/t1.json"
        = "grafana_data/dashboards" ++ "/" ++ title ++ ".json") :=
  ⟨dashboard_file_naming.1
      (fun _ => some (⟨9, "u1", "T", []⟩, ⟨"t-slug"⟩)) (fun _ => true)
      "grafana_data/dashboards" ⟨"u1", "T", "dash-db"⟩
      "grafana_data/dashboards/t-slug.json" ⟨0, "u1", "T", []⟩ rfl,
   dashboard_file_naming.2 "http://g"
      (fun _ => HttpResult.response 200 (Bytes.json GoVal.nil)) (fun _ => true)
      "grafana_data/dashboards" [("uid", GoVal.str "u1"), ("title", GoVal.str "t1")]
      "grafana_data/dashboards/t1.json" (Bytes.json GoVal.nil) rfl⟩

/-- Claim C6 (counterexample): a `datasources.json` whose top level is not a
JSON array makes `pushDatasources` log the decode error and return — the
process does not exit with code 1 (the exit component is `none`). -/
theorem pushDatasources_decode_failure_no_exit :
    pushDatasources "http://g" (fun _ => HttpResult.response 200 (Bytes.json GoVal.nil))
      (some (Bytes.json (GoVal.str "not an array"))) = ([], none)
    ∧ (none : Option Nat) ≠ some 1 :=
  ⟨rfl, by decide⟩

/-- Claim C6 (amended): for the single-file entity kinds, a failure to decode
the top-level JSON list aborts that entity kind — no record is uploaded — with
a logged error, but the push function simply returns: the process does not
exit with code 1. -/
theorem push_single_file_decode_failure_returns (base : String)
    (server : Request → HttpResult) (data : Bytes)
    (hdec : decodeObjArray data = none) :
    pushDatasources base server (some data) = ([], none) ∧
    pushFolders base server (some data) = ([], none) ∧
    pushNotificationChannels base server (some data) = ([], none) := by
  refine ⟨?_, ?_, ?_⟩ <;>
    simp only [pushDatasources, pushFolders, pushNotificationChannels, hdec]

/-- Witness for the amended C6: malformed bytes decode to nothing and all
three pushes return without uploads or exit. -/
theorem push_single_file_decode_failure_returns_witness :
    pushDatasources "http://g" (fun _ => HttpResult.response 200 (Bytes.json GoVal.nil))
      (some (Bytes.malformed "oops")) = ([], none) ∧
    pushFolders "http://g" (fun _ => HttpResult.response 200 (Bytes.json GoVal.nil))
      (some (Bytes.malformed "oops")) = ([], none) ∧
    pushNotificationChannels "http://g" (fun _ => HttpResult.response 200 (Bytes.json GoVal.nil))
      (some (Bytes.malformed "oops")) = ([], none) :=
  push_single_file_decode_failure_returns "http://g"
    (fun _ => HttpResult.response 200 (Bytes.json GoVal.nil)) (Bytes.malformed "oops") rfl

/-- Claim C7 (counterexample): in the raw-HTTP `pushDashboards`, a failed
directory listing is silently discarded (`files, _ := ioutil.ReadDir(...)`):
the push uploads nothing and the process does not exit with code 1. -/
theorem pushDashboards_listing_failure_ignored :
    pushDashboards "http://g" (fun _ => HttpResult.response 200 (Bytes.json GoVal.nil))
      "" none = ([], none)
    ∧ (none : Option Nat) ≠ some 1 :=
  ⟨rfl, by decide⟩

/-- Claim C7 (amended): a directory-listing failure during Push Dashboards is
fatal (exit code 1) in the SDK implementation (`log.Fatalf`), but in the
raw-HTTP implementation the error is ignored and the push silently issues no
requests and does not exit. -/
theorem push_dir_listing_failure (base : String) (server : Request → HttpResult)
    (folders : Option (List SdkFolder)) (folderArg : String) :
    pushDashboards base server "" none = ([], none) ∧
    sdkPushDashboards folders folderArg none = SdkStep.exited 1 :=
  ⟨rfl, rfl⟩

/-- Claim C8 (confirmed): when the local `datasources.json` decodes to an
array of N objects and the server accepts every request, `pushDatasources`
issues exactly N POSTs to `{base}/api/datasources`, one per array element in
array order, each carrying the corresponding source object as its body. -/
theorem pushDatasources_one_call_per_record (base : String)
    (server : Request → HttpResult) (data : Bytes)
    (datasources : List (List (String × GoVal)))
    (hdec : decodeObjArray data = some datasources)
    (hok : ∀ r, (server r).ok = true) :
    pushDatasources base server (some data)
      = (datasources.map (fun ds =>
          { method := "POST", url := base ++ "/api/datasources",
            body := some (Bytes.json (GoVal.obj ds)) }), none)
    ∧ (pushDatasources base server (some data)).1.length = datasources.length := by
  have h : pushDatasources base server (some data)
      = (datasources.map (fun ds =>
          ({ method := "POST", url := base ++ "/api/datasources",
             body := some (Bytes.json (GoVal.obj ds)) } : Request)), none) := by
    simp only [pushDatasources, hdec]
    exact sendAll_ok server _ hok
  exact ⟨h, by rw [h]; simp⟩

/-- Witness for C8: two datasources produce exactly the two POSTs, in order. -/
theorem pushDatasources_one_call_per_record_witness :
    pushDatasources "http://g" (fun _ => HttpResult.response 200 (Bytes.json GoVal.nil))
      (some (Bytes.json (GoVal.arr
        [GoVal.obj [("name", GoVal.str "a")], GoVal.obj [("name", GoVal.str "b")]])))
      = ([{ method := "POST", url := "http://g/api/datasources",
            body := some (Bytes.json (GoVal.obj [("name", GoVal.str "a")])) },
          { method := "POST", url := "http://g/api/datasources",
            body := some (Bytes.json (GoVal.obj [("name", GoVal.str "b")])) }], none) :=
  (pushDatasources_one_call_per_record "http://g"
    (fun _ => HttpResult.response 200 (Bytes.json GoVal.nil))
    (Bytes.json (GoVal.arr
      [GoVal.obj [("name", GoVal.str "a")], GoVal.obj [("name", GoVal.str "b")]]))
    [[("name", GoVal.str "a")], [("name", GoVal.str "b")]]
    rfl (fun _ => rfl)).1
